import Mathlib

/-!
Shallow embedding of the crypto trading simulator
(`src/simulator.py`, `src/Strategy.py`).

Conventions of the embedding:
* Python floats are modelled as exact rationals (`ℚ`); decimal literals of
  the source (`0.1`, `0.0001`, `0.01`) become the rationals `1/10`,
  `1/10000`, `1/100`.
* Python dicts keyed by symbol strings are modelled as association lists
  with first-match lookup and in-place update (`getD` / `setD`), matching
  `dict.get(k, default)` and `d[k] = v`.
* `datetime.fromtimestamp` is modelled with UTC epoch arithmetic
  (`hour = t / 3600 % 24`, `minute = t / 60 % 60`); the host timezone is
  fixed to UTC.
* The mutually-calling objects `Simulator` and `Strategy` share one record
  `State`; `Simulator.onOrder` invokes `Strategy.onTradeConfirmation`
  synchronously exactly as in the source.
* Executed fills are recorded in an explicit trace field `fills`
  (the source's observable effect: the `[TRADE]` print and the strategy
  callback), so "an order was submitted" is a statement about `fills`.
-/

namespace CryptoSim

/-- Order side, the `side` string argument of `Simulator.onOrder`
(`"buy"` / anything else is treated as sell, as in the source's
`if side == "buy": ... else: ...`). -/
inductive Side where
  | buy : Side
  | sell : Side
deriving DecidableEq, Repr

/-- One executed fill: symbol, side, quantity and the executed
(slippage-adjusted) `trade_price` of `Simulator.onOrder`. -/
structure Fill where
  symbol : String
  side : Side
  quantity : ℚ
  price : ℚ
deriving DecidableEq, Repr

/-- One market-data row: columns `timestamp`, `Symbol`, `close` of the
input files (epoch seconds, symbol string, close price). -/
structure Tick where
  timestamp : ℕ
  symbol : String
  close : ℚ
deriving DecidableEq, Repr

/-- An order request as passed to `Simulator.onOrder`
(`price` is the reference price before slippage). -/
structure OrderReq where
  symbol : String
  side : Side
  quantity : ℚ
  price : ℚ
deriving DecidableEq, Repr

/-- A Python dict from symbol strings to numbers, as an association list
with unique keys. -/
abbrev Dict := List (String × ℚ)

/-- Model of `d.get(k, v)`: value of the first matching key, else `v`. -/
def getD : Dict → String → ℚ → ℚ
  | [], _, v => v
  | (k', x) :: rest, k, v => if k' = k then x else getD rest k v

/-- Model of `d[k] = v`: replace the value of an existing key in place,
otherwise append the new binding at the end. -/
def setD : Dict → String → ℚ → Dict
  | [], k, v => [(k, v)]
  | (k', x) :: rest, k, v =>
      if k' = k then (k, v) :: rest else (k', x) :: setD rest k v

/-- Combined state of `Simulator` and its `Strategy`.  `symbols` is the
externally supplied `config.symbols` universe (the `config` module is
configuration, not part of the simulation core); it is never mutated. -/
structure State where
  symbols : List String
  currentPrice : Dict
  buyValue : Dict
  sellValue : Dict
  currQuantity : Dict
  pnl_log : List (ℕ × ℚ)
  fills : List Fill
  entry_price : Option ℚ
  call_strike : Option String
  put_strike : Option String
  in_position : Bool
  pnl : ℚ
deriving DecidableEq, Repr

/-- Fresh `Simulator()` + `Strategy(simulator)` state for a given
configured symbol universe. -/
def initState (symbols : List String) : State :=
  { symbols := symbols
    currentPrice := []
    buyValue := []
    sellValue := []
    currQuantity := []
    pnl_log := []
    fills := []
    entry_price := none
    call_strike := none
    put_strike := none
    in_position := false
    pnl := 0 }

/-- The slippage-adjusted `trade_price` of `Simulator.onOrder`:
`price * (1 + slippage)` for buys, `price * (1 - slippage)` for sells,
with `slippage = 0.0001`. -/
def tradePrice (side : Side) (price : ℚ) : ℚ :=
  match side with
  | Side.buy => price * (1 + 1 / 10000)
  | Side.sell => price * (1 - 1 / 10000)

/-- `Strategy.onTradeConfirmation`: buys decrease, sells increase the
strategy-local cash-flow accumulator `pnl` by `quantity * price`. -/
def onTradeConfirmation (st : State) (_symbol : String) (side : Side)
    (quantity price : ℚ) : State :=
  match side with
  | Side.buy => { st with pnl := st.pnl - quantity * price }
  | Side.sell => { st with pnl := st.pnl + quantity * price }

/-- `Simulator.onOrder`: apply slippage, update the per-symbol ledger
accumulators, record the fill, and notify the strategy. -/
def onOrder (st : State) (symbol : String) (side : Side)
    (quantity price : ℚ) : State :=
  let trade_price := tradePrice side price
  match side with
  | Side.buy =>
      onTradeConfirmation
        { st with
            currQuantity :=
              setD st.currQuantity symbol
                (getD st.currQuantity symbol 0 + quantity)
            buyValue :=
              setD st.buyValue symbol
                (getD st.buyValue symbol 0 + trade_price * quantity)
            fills := st.fills ++ [⟨symbol, side, quantity, trade_price⟩] }
        symbol Side.buy quantity trade_price
  | Side.sell =>
      onTradeConfirmation
        { st with
            currQuantity :=
              setD st.currQuantity symbol
                (getD st.currQuantity symbol 0 - quantity)
            sellValue :=
              setD st.sellValue symbol
                (getD st.sellValue symbol 0 + trade_price * quantity)
            fills := st.fills ++ [⟨symbol, side, quantity, trade_price⟩] }
        symbol Side.sell quantity trade_price

/-- Python's `round` on an exact rational: round half to even. -/
def pyRound (q : ℚ) : ℤ :=
  if q - ⌊q⌋ < 1 / 2 then ⌊q⌋
  else if (1 : ℚ) / 2 < q - ⌊q⌋ then ⌊q⌋ + 1
  else if ⌊q⌋ % 2 = 0 then ⌊q⌋ else ⌊q⌋ + 1

/-- Whether the first list occurs at the start of the second. -/
def isStart : List Char → List Char → Bool
  | [], _ => true
  | _ :: _, [] => false
  | a :: as, b :: bs => if a = b then isStart as bs else false

/-- Whether `pat` occurs as a contiguous substring of `s`
(Python's `pat in s`). -/
def containsSub (s pat : List Char) : Bool :=
  match s with
  | [] => isStart pat []
  | _ :: rest => if isStart pat s then true else containsSub rest pat

/-- The trigger-instrument test `"BTCUSDT" in symbol` of
`Strategy.onMarketData`. -/
def containsBTCUSDT (symbol : String) : Bool :=
  containsSub symbol.toList "BTCUSDT".toList

/-- One attempted match of the regex `C-BTC-\d+-(\d+)` anchored at the
start of `cs`: the literal `C-BTC-`, a nonempty maximal digit run, a
hyphen, then the captured nonempty maximal digit run. -/
def matchCBTCAt (cs : List Char) : Option (List Char) :=
  if ("C-BTC-".toList).isPrefixOf cs then
    let rest := cs.drop 6
    let d1 := rest.takeWhile Char.isDigit
    let r1 := rest.dropWhile Char.isDigit
    if d1 = [] then none
    else
      match r1 with
      | '-' :: r2 =>
          let d2 := r2.takeWhile Char.isDigit
          if d2 = [] then none else some d2
      | _ => none
  else none

/-- `re.search(r'C-BTC-\d+-(\d+)', sym)`: the capture group of the
leftmost match, if any. -/
def searchCBTC : List Char → Option (List Char)
  | [] => none
  | c :: rest =>
      match matchCBTCAt (c :: rest) with
      | some g => some g
      | none => searchCBTC rest

/-- The expiry token extracted from one configured symbol. -/
def extractExpiry (sym : String) : Option String :=
  match searchCBTC sym.toList with
  | some g => some (String.mk g)
  | none => none

/-- All expiry tokens found in the configured universe
(the `expiries` set of `Strategy.onMarketData`; duplicates are harmless
because only the least element is used). -/
def expiriesOf (syms : List String) : List String :=
  syms.filterMap extractExpiry

/-- Lexicographic (code-point) comparison of strings, Python's `<` on
`str`, used by `sorted`. -/
def lexLt : List Char → List Char → Bool
  | [], [] => false
  | [], _ :: _ => true
  | _ :: _, [] => false
  | a :: as, b :: bs =>
      if a < b then true else if b < a then false else lexLt as bs

/-- `sorted(expiries)[0]`: the lexicographically least expiry token, if
the collection is nonempty. -/
def minString (l : List String) : Option String :=
  l.foldl
    (fun acc s =>
      match acc with
      | none => some s
      | some m => if lexLt s.toList m.toList then some s else some m)
    none

/-- The call/put identifiers derived in `Strategy.onMarketData`:
at-the-money strike `round(price / 1000) * 1000` and the earliest expiry
in the universe; `none` when no expiry token parses. -/
def derivedStrikes (syms : List String) (price : ℚ) :
    Option (String × String) :=
  match minString (expiriesOf syms) with
  | none => none
  | some expiry =>
      let atm : ℤ := pyRound (price / 1000) * 1000
      some ("C-BTC-" ++ toString atm ++ "-" ++ expiry,
            "P-BTC-" ++ toString atm ++ "-" ++ expiry)

/-- The exit condition of `Strategy.onMarketData`:
`abs(fut_price - entry_price) / entry_price > 0.01 or pnl >= 500 or
pnl <= -500`, with `fut_price = currentPrice.get("BTCUSDT", 0)`. -/
def exitCond (st : State) : Prop :=
  1 / 100 <
      |getD st.currentPrice "BTCUSDT" 0 - st.entry_price.getD 0| /
        st.entry_price.getD 0 ∨
    500 ≤ st.pnl ∨ st.pnl ≤ -500

instance (st : State) : Decidable (exitCond st) := by
  unfold exitCond; exact inferInstance

/-- The trailing `if self.in_position:` block of `Strategy.onMarketData`:
close both legs with buy orders (reference price = last known price of
the leg, else the tick's price) and leave the position. -/
def exitCheck (st : State) (price : ℚ) : State :=
  if st.in_position = true then
    if exitCond st then
      let cs := st.call_strike.getD ""
      let ps := st.put_strike.getD ""
      let st1 := onOrder st cs Side.buy (1 / 10)
        (getD st.currentPrice cs price)
      let st2 := onOrder st1 ps Side.buy (1 / 10)
        (getD st1.currentPrice ps price)
      { st2 with in_position := false }
    else st
  else st

/-- `Strategy.onMarketData`.  The entry branch runs when flat, the tick's
symbol contains `BTCUSDT` and the wall-clock time is 13:00; it records
the entry price, derives the straddle identifiers (returning early when
no expiry parses, as the source's `return` does), and sells both legs
only when both identifiers are listed in the universe.  The exit check
then runs on the possibly-updated state. -/
def onMarketData (st : State) (row : Tick) : State :=
  let time := row.timestamp
  let symbol := row.symbol
  let price := row.close
  if st.in_position = false ∧ containsBTCUSDT symbol = true then
    if time / 3600 % 24 = 13 ∧ time / 60 % 60 = 0 then
      let st1 := { st with entry_price := some price }
      match derivedStrikes st1.symbols price with
      | none => st1
      | some (cs, ps) =>
          let st2 := { st1 with call_strike := some cs, put_strike := some ps }
          if cs ∈ st2.symbols ∧ ps ∈ st2.symbols then
            let st3 := onOrder st2 cs Side.sell (1 / 10)
              (getD st2.currentPrice cs price)
            let st4 := onOrder st3 ps Side.sell (1 / 10)
              (getD st3.currentPrice ps price)
            exitCheck { st4 with in_position := true } price
          else
            exitCheck st2 price
    else exitCheck st price
  else exitCheck st price

/-- The per-tick total PnL recomputation of `Simulator.startSimulation`:
`sell - buy + qty * last_price` summed over the configured universe. -/
def totalPnl (st : State) : ℚ :=
  st.symbols.foldl
    (fun acc sym =>
      acc +
        (getD st.sellValue sym 0 - getD st.buyValue sym 0 +
          getD st.currQuantity sym 0 * getD st.currentPrice sym 0))
    0

/-- One iteration of the `Simulator.startSimulation` loop: update the
current-price table, fire the strategy callback, append the recomputed
total PnL to the log. -/
def simStep (st : State) (row : Tick) : State :=
  let st1 := { st with
    currentPrice := setD st.currentPrice row.symbol row.close }
  let st2 := onMarketData st1 row
  { st2 with pnl_log := st2.pnl_log ++ [(row.timestamp, totalPnl st2)] }

/-- `Simulator.startSimulation`: fold the loop body over the tick feed. -/
def startSimulation (st : State) (ticks : List Tick) : State :=
  ticks.foldl simStep st

/-- Timestamp order on ticks, the `sort_values(by="timestamp")` key. -/
def tickLE (a b : Tick) : Prop := a.timestamp ≤ b.timestamp

instance : DecidableRel tickLE := fun a b =>
  inferInstanceAs (Decidable (a.timestamp ≤ b.timestamp))

instance : IsTotal Tick tickLE :=
  ⟨fun a b => Nat.le_total a.timestamp b.timestamp⟩

instance : IsTrans Tick tickLE :=
  ⟨fun _ _ _ hab hbc => Nat.le_trans hab hbc⟩

/-- Sorting the concatenated rows by timestamp. -/
def sortTicks (ticks : List Tick) : List Tick :=
  List.insertionSort tickLE ticks

/-- `Simulator.readData`, given the per-file row collections found on
disk.  When no file at all was found (`data_frames == []`), the source
builds `pd.DataFrame()` — a frame with no columns — and then calls
`sort_values(by="timestamp")` on it, which raises `KeyError`; otherwise
the concatenated rows are sorted by timestamp. -/
def readData (frames : List (List Tick)) : Except String (List Tick) :=
  match frames with
  | [] => Except.error "KeyError: timestamp"
  | _ => Except.ok (sortTicks frames.flatten)

/-- Per-symbol mark-to-market PnL of the ledger at price `p`:
`cumulativeSellNotional - cumulativeBuyNotional + netQuantity * p`. -/
def pnlSym (st : State) (s : String) (p : ℚ) : ℚ :=
  getD st.sellValue s 0 - getD st.buyValue s 0 + getD st.currQuantity s 0 * p

/-- Submit a sequence of order requests through `Simulator.onOrder`. -/
def applyOrders (st : State) (l : List OrderReq) : State :=
  l.foldl (fun s o => onOrder s o.symbol o.side o.quantity o.price) st

/-- The signed cash flow of a fill evaluated at mark price `p`: a buy of
quantity `q` executed at `e` contributes `q * p - e * q`, a sell
contributes `e * q - q * p`, with `e` the slippage-adjusted price. -/
def flowAt (p : ℚ) (o : OrderReq) : ℚ :=
  match o.side with
  | Side.buy => o.quantity * p - tradePrice Side.buy o.price * o.quantity
  | Side.sell => tradePrice Side.sell o.price * o.quantity - o.quantity * p

/-- Sum of the signed cash flows, at mark price `p`, of those requested
fills whose symbol is `s`. -/
def sumFlows (s : String) (p : ℚ) (l : List OrderReq) : ℚ :=
  (l.map (fun o => if o.symbol = s then flowAt p o else 0)).sum

/-! Dictionary lemmas. -/

theorem getD_setD_self (d : Dict) (k : String) (v w : ℚ) :
    getD (setD d k v) k w = v := by
  induction d with
  | nil => simp [setD, getD]
  | cons p rest ih =>
      obtain ⟨k', x⟩ := p
      by_cases h : k' = k <;> simp [setD, getD, h, ih]

theorem getD_setD_of_ne (d : Dict) {k k' : String} (h : k ≠ k') (v w : ℚ) :
    getD (setD d k v) k' w = getD d k' w := by
  induction d with
  | nil => simp [setD, getD, h]
  | cons p rest ih =>
      obtain ⟨k'', x⟩ := p
      by_cases h2 : k'' = k
      · subst h2; simp [setD, getD, h]
      · simp [setD, getD, h2, ih]

/-! Field effects of the execution engine. -/

@[simp] theorem onOrder_fills (st : State) (sym : String) (side : Side)
    (q r : ℚ) :
    (onOrder st sym side q r).fills =
      st.fills ++ [⟨sym, side, q, tradePrice side r⟩] := by
  cases side <;> rfl

@[simp] theorem onOrder_currentPrice (st : State) (sym : String)
    (side : Side) (q r : ℚ) :
    (onOrder st sym side q r).currentPrice = st.currentPrice := by
  cases side <;> rfl

@[simp] theorem onOrder_symbols (st : State) (sym : String) (side : Side)
    (q r : ℚ) : (onOrder st sym side q r).symbols = st.symbols := by
  cases side <;> rfl

@[simp] theorem onOrder_pnl_log (st : State) (sym : String) (side : Side)
    (q r : ℚ) : (onOrder st sym side q r).pnl_log = st.pnl_log := by
  cases side <;> rfl

@[simp] theorem onOrder_entry_price (st : State) (sym : String)
    (side : Side) (q r : ℚ) :
    (onOrder st sym side q r).entry_price = st.entry_price := by
  cases side <;> rfl

@[simp] theorem onOrder_call_strike (st : State) (sym : String)
    (side : Side) (q r : ℚ) :
    (onOrder st sym side q r).call_strike = st.call_strike := by
  cases side <;> rfl

@[simp] theorem onOrder_put_strike (st : State) (sym : String)
    (side : Side) (q r : ℚ) :
    (onOrder st sym side q r).put_strike = st.put_strike := by
  cases side <;> rfl

@[simp] theorem onOrder_in_position (st : State) (sym : String)
    (side : Side) (q r : ℚ) :
    (onOrder st sym side q r).in_position = st.in_position := by
  cases side <;> rfl

theorem onOrder_pnl_buy (st : State) (sym : String) (q r : ℚ) :
    (onOrder st sym Side.buy q r).pnl =
      st.pnl - q * tradePrice Side.buy r := rfl

theorem onOrder_pnl_sell (st : State) (sym : String) (q r : ℚ) :
    (onOrder st sym Side.sell q r).pnl =
      st.pnl + q * tradePrice Side.sell r := rfl

theorem onOrder_buyValue_buy (st : State) (sym : String) (q r : ℚ) :
    (onOrder st sym Side.buy q r).buyValue =
      setD st.buyValue sym
        (getD st.buyValue sym 0 + tradePrice Side.buy r * q) := rfl

theorem onOrder_buyValue_sell (st : State) (sym : String) (q r : ℚ) :
    (onOrder st sym Side.sell q r).buyValue = st.buyValue := rfl

theorem onOrder_sellValue_buy (st : State) (sym : String) (q r : ℚ) :
    (onOrder st sym Side.buy q r).sellValue = st.sellValue := rfl

theorem onOrder_sellValue_sell (st : State) (sym : String) (q r : ℚ) :
    (onOrder st sym Side.sell q r).sellValue =
      setD st.sellValue sym
        (getD st.sellValue sym 0 + tradePrice Side.sell r * q) := rfl

theorem onOrder_currQuantity_buy (st : State) (sym : String) (q r : ℚ) :
    (onOrder st sym Side.buy q r).currQuantity =
      setD st.currQuantity sym (getD st.currQuantity sym 0 + q) := rfl

theorem onOrder_currQuantity_sell (st : State) (sym : String) (q r : ℚ) :
    (onOrder st sym Side.sell q r).currQuantity =
      setD st.currQuantity sym (getD st.currQuantity sym 0 - q) := rfl

/-! Structural lemmas about the strategy callback. -/

theorem exitCheck_flat (st : State) (p : ℚ)
    (h : st.in_position = false) : exitCheck st p = st := by
  simp [exitCheck, h]

@[simp] theorem exitCheck_pnl_log (st : State) (p : ℚ) :
    (exitCheck st p).pnl_log = st.pnl_log := by
  unfold exitCheck
  split
  · split <;> simp
  · rfl

theorem onMarketData_inPos (st : State) (row : Tick)
    (hin : st.in_position = true) :
    onMarketData st row = exitCheck st row.close := by
  unfold onMarketData
  simp [hin]

@[simp] theorem onMarketData_pnl_log (st : State) (row : Tick) :
    (onMarketData st row).pnl_log = st.pnl_log := by
  unfold onMarketData
  dsimp only
  split
  · split
    · split
      · rfl
      · split <;> simp
    · simp
  · simp

/-! The PnL series emitted by the simulation loop. -/

theorem startSimulation_log_fst (ticks : List Tick) :
    ∀ st : State,
      ((startSimulation st ticks).pnl_log).map Prod.fst =
        st.pnl_log.map Prod.fst ++ ticks.map Tick.timestamp := by
  induction ticks with
  | nil => intro st; simp [startSimulation]
  | cons t ts ih =>
      intro st
      have hstep : startSimulation st (t :: ts) =
          startSimulation (simStep st t) ts := rfl
      rw [hstep, ih]
      simp [simStep]

/-! Ledger accounting lemmas. -/

theorem pnlSym_onOrder (st : State) (sym : String) (side : Side)
    (q r : ℚ) (s : String) (p : ℚ) :
    pnlSym (onOrder st sym side q r) s p =
      pnlSym st s p + (if sym = s then flowAt p ⟨sym, side, q, r⟩ else 0) := by
  cases side <;> by_cases h : sym = s
  · subst h
    simp [pnlSym, onOrder_buyValue_buy, onOrder_sellValue_buy,
      onOrder_currQuantity_buy, getD_setD_self, flowAt]
    ring
  · simp [pnlSym, onOrder_buyValue_buy, onOrder_sellValue_buy,
      onOrder_currQuantity_buy, getD_setD_of_ne _ h, h]
  · subst h
    simp [pnlSym, onOrder_buyValue_sell, onOrder_sellValue_sell,
      onOrder_currQuantity_sell, getD_setD_self, flowAt]
    ring
  · simp [pnlSym, onOrder_buyValue_sell, onOrder_sellValue_sell,
      onOrder_currQuantity_sell, getD_setD_of_ne _ h, h]

theorem applyOrders_pnlSym (l : List OrderReq) :
    ∀ (st : State) (s : String) (p : ℚ),
      pnlSym (applyOrders st l) s p = pnlSym st s p + sumFlows s p l := by
  induction l with
  | nil => intro st s p; simp [applyOrders, sumFlows]
  | cons o os ih =>
      intro st s p
      have hstep : applyOrders st (o :: os) =
          applyOrders (onOrder st o.symbol o.side o.quantity o.price) os := rfl
      rw [hstep, ih, pnlSym_onOrder]
      simp [sumFlows]
      ring

/-! Monotonicity of the notional accumulators under well-signed orders. -/

theorem tradePrice_nonneg (side : Side) {r : ℚ} (hr : 0 ≤ r) :
    0 ≤ tradePrice side r := by
  cases side <;> simp [tradePrice] <;> nlinarith

theorem getD_buyValue_le_onOrder (st : State) (o : OrderReq)
    (hq : 0 ≤ o.quantity) (hr : 0 ≤ o.price) (s : String) :
    getD st.buyValue s 0 ≤
      getD (onOrder st o.symbol o.side o.quantity o.price).buyValue s 0 := by
  cases hside : o.side
  · rw [onOrder_buyValue_buy]
    by_cases h : o.symbol = s
    · subst h
      rw [getD_setD_self]
      have := mul_nonneg (tradePrice_nonneg Side.buy hr) hq
      linarith
    · rw [getD_setD_of_ne _ h]
  · rw [onOrder_buyValue_sell]

theorem getD_sellValue_le_onOrder (st : State) (o : OrderReq)
    (hq : 0 ≤ o.quantity) (hr : 0 ≤ o.price) (s : String) :
    getD st.sellValue s 0 ≤
      getD (onOrder st o.symbol o.side o.quantity o.price).sellValue s 0 := by
  cases hside : o.side
  · rw [onOrder_sellValue_buy]
  · rw [onOrder_sellValue_sell]
    by_cases h : o.symbol = s
    · subst h
      rw [getD_setD_self]
      have := mul_nonneg (tradePrice_nonneg Side.sell hr) hq
      linarith
    · rw [getD_setD_of_ne _ h]

/-! Claim theorems. -/

/-- C1: for every finite sequence of fills submitted through
`Simulator.onOrder` and every symbol `s` and mark price `p`, the
per-symbol PnL `cumulativeSellNotional - cumulativeBuyNotional +
netQuantity * p` equals the sum of the signed cash flows of that
symbol's fills evaluated at `p`. -/
theorem claim1_ledger_conservation (syms : List String)
    (l : List OrderReq) (s : String) (p : ℚ) :
    pnlSym (applyOrders (initState syms) l) s p = sumFlows s p l := by
  rw [applyOrders_pnlSym]
  simp [pnlSym, initState, getD]

/-- C4: the claim expects an empty feed to complete without failure with
an empty output series; the code instead raises `KeyError` in
`readData`, because with no data file found it calls
`sort_values(by="timestamp")` on a column-less `pd.DataFrame()`.  The
simulation loop itself, had it been reached with zero ticks, would
indeed leave the PnL log and every ledger accumulator empty. -/
theorem claim4_empty_feed :
    readData [] = Except.error "KeyError: timestamp" ∧
    ∀ syms : List String,
      (startSimulation (initState syms) []).pnl_log = [] ∧
      (startSimulation (initState syms) []).buyValue = [] ∧
      (startSimulation (initState syms) []).sellValue = [] ∧
      (startSimulation (initState syms) []).currQuantity = [] :=
  ⟨rfl, fun _ => ⟨rfl, rfl, rfl, rfl⟩⟩

/-- C6 counterexample: a buy fill at reference price `-1` executes at
`-1.0001 < -1`, refuting "for every fill, buy implies
executedPrice ≥ referencePrice" as stated without a sign restriction;
moreover at reference price `0` the executed price equals the reference
although the slippage rate is the fixed nonzero `0.0001`, refuting
"equality only when the slippage rate is 0". -/
theorem claim6_counterexample :
    (onOrder (initState ["X"]) "X" Side.buy 1 (-1)).fills =
      [⟨"X", Side.buy, 1, tradePrice Side.buy (-1)⟩] ∧
    ¬ ((-1 : ℚ) ≤ tradePrice Side.buy (-1)) ∧
    tradePrice Side.buy 0 = 0 := by
  refine ⟨?_, ?_, ?_⟩
  · simp [initState]
  · norm_num [tradePrice]
  · norm_num [tradePrice]

/-- C6 (amended): for fills with nonnegative reference price, a buy
executes at a price at least the reference and a sell at most the
reference; since the slippage rate is the fixed nonzero `0.0001`,
equality holds exactly when the reference price is `0`. -/
theorem claim6_slippage_direction (st : State) (sym : String)
    (side : Side) (q r : ℚ) (hr : 0 ≤ r) :
    (onOrder st sym side q r).fills =
      st.fills ++ [⟨sym, side, q, tradePrice side r⟩] ∧
    (side = Side.buy → r ≤ tradePrice side r) ∧
    (side = Side.sell → tradePrice side r ≤ r) ∧
    (tradePrice side r = r ↔ r = 0) := by
  refine ⟨onOrder_fills st sym side q r, ?_, ?_, ?_⟩
  · rintro rfl; simp [tradePrice]; nlinarith
  · rintro rfl; simp [tradePrice]; nlinarith
  · cases side <;> simp [tradePrice] <;> constructor <;> intro h <;> nlinarith

/-- Witness for the amended C6 at reference price 2. -/
theorem claim6_slippage_direction_witness :
    (onOrder (initState ["X"]) "X" Side.buy 1 2).fills =
      (initState ["X"]).fills ++ [⟨"X", Side.buy, 1, tradePrice Side.buy 2⟩] ∧
    (Side.buy = Side.buy → (2 : ℚ) ≤ tradePrice Side.buy 2) ∧
    (Side.buy = Side.sell → tradePrice Side.buy 2 ≤ 2) ∧
    (tradePrice Side.buy 2 = 2 ↔ (2 : ℚ) = 0) :=
  claim6_slippage_direction (initState ["X"]) "X" Side.buy 1 2 (by norm_num)

/-- C7 counterexample: a buy order with quantity `-1` at reference price
`1` strictly reduces `buyValue["X"]`, refuting monotonicity of the
notional accumulators without a sign precondition. -/
theorem claim7_counterexample :
    getD (onOrder (initState ["X"]) "X" Side.buy (-1) 1).buyValue "X" 0 <
      getD (initState ["X"]).buyValue "X" 0 := by
  norm_num [initState, onOrder_buyValue_buy, getD, setD, tradePrice]

/-- C7 (amended): across any sequence of orders whose quantities and
reference prices are nonnegative, each symbol's cumulative buy and sell
notionals never decrease. -/
theorem claim7_notional_monotone (l : List OrderReq) :
    ∀ st : State,
      (∀ o ∈ l, 0 ≤ o.quantity ∧ 0 ≤ o.price) →
      ∀ s : String,
        getD st.buyValue s 0 ≤ getD (applyOrders st l).buyValue s 0 ∧
        getD st.sellValue s 0 ≤ getD (applyOrders st l).sellValue s 0 := by
  induction l with
  | nil => intro st _ s; simp [applyOrders]
  | cons o os ih =>
      intro st h s
      have ho := h o (List.mem_cons_self o os)
      have hos : ∀ o' ∈ os, 0 ≤ o'.quantity ∧ 0 ≤ o'.price :=
        fun o' h' => h o' (List.mem_cons_of_mem o h')
      have hstep : applyOrders st (o :: os) =
          applyOrders (onOrder st o.symbol o.side o.quantity o.price) os :=
        rfl
      rw [hstep]
      obtain ⟨ih1, ih2⟩ :=
        ih (onOrder st o.symbol o.side o.quantity o.price) hos s
      exact ⟨le_trans (getD_buyValue_le_onOrder st o ho.1 ho.2 s) ih1,
        le_trans (getD_sellValue_le_onOrder st o ho.1 ho.2 s) ih2⟩

/-- Witness for the amended C7 on a one-element order sequence. -/
theorem claim7_notional_monotone_witness :
    getD (initState ["X"]).buyValue "X" 0 ≤
      getD (applyOrders (initState ["X"]) [⟨"X", Side.buy, 1, 1⟩]).buyValue
        "X" 0 ∧
    getD (initState ["X"]).sellValue "X" 0 ≤
      getD (applyOrders (initState ["X"]) [⟨"X", Side.buy, 1, 1⟩]).sellValue
        "X" 0 :=
  claim7_notional_monotone [⟨"X", Side.buy, 1, 1⟩] (initState ["X"])
    (by intro o ho; simp at ho; subst ho; norm_num) "X"

/-- C8: replay is deterministic; running the simulation loop on equal
configurations and equal tick sequences yields the same emitted PnL
series (the embedded engine is a pure function of its inputs; the source
loop reads nothing else). -/
theorem claim8_replay_deterministic (syms1 syms2 : List String)
    (ticks1 ticks2 : List Tick) (hs : syms1 = syms2)
    (ht : ticks1 = ticks2) :
    (startSimulation (initState syms1) ticks1).pnl_log =
      (startSimulation (initState syms2) ticks2).pnl_log := by
  subst hs; subst ht; rfl

/-- Witness for C8 on a concrete one-tick feed. -/
theorem claim8_replay_deterministic_witness :
    (startSimulation (initState ["A"]) [⟨1, "A", 2⟩]).pnl_log =
      (startSimulation (initState ["A"]) [⟨1, "A", 2⟩]).pnl_log :=
  claim8_replay_deterministic ["A"] ["A"] [⟨1, "A", 2⟩] [⟨1, "A", 2⟩]
    rfl rfl

/-- C2: while `InPosition` (with entry price `ep` and recorded straddle
legs), a market-data event for any symbol closes both legs with two buy
orders and transitions to `Flat` exactly when
`|currentTriggerPrice - ep| / ep > 0.01` or the strategy-local realized
PnL is `≥ 500` or `≤ -500`, where the trigger price is the latest known
`BTCUSDT` price. -/
theorem claim2_exit_iff (st : State) (row : Tick) (ep : ℚ)
    (cs ps : String) (hin : st.in_position = true)
    (hep : st.entry_price = some ep) (hcs : st.call_strike = some cs)
    (hps : st.put_strike = some ps) :
    ((onMarketData st row).in_position = false ∧
      (onMarketData st row).fills = st.fills ++
        [⟨cs, Side.buy, 1 / 10,
            tradePrice Side.buy (getD st.currentPrice cs row.close)⟩,
          ⟨ps, Side.buy, 1 / 10,
            tradePrice Side.buy (getD st.currentPrice ps row.close)⟩]) ↔
      (1 / 100 < |getD st.currentPrice "BTCUSDT" 0 - ep| / ep ∨
        500 ≤ st.pnl ∨ st.pnl ≤ -500) := by
  have hcond : exitCond st ↔
      (1 / 100 < |getD st.currentPrice "BTCUSDT" 0 - ep| / ep ∨
        500 ≤ st.pnl ∨ st.pnl ≤ -500) := by
    simp [exitCond, hep]
  rw [onMarketData_inPos st row hin, ← hcond]
  unfold exitCheck
  rw [if_pos hin]
  by_cases hc : exitCond st
  · rw [if_pos hc]
    simp [hcs, hps, hc]
  · rw [if_neg hc]
    simp [hin, hc]

/-- Witness for C2: a state holding the straddle with realized PnL 600
exits on the next event. -/
theorem claim2_exit_iff_witness :
    ((onMarketData
          { symbols := ["BTCUSDT"], currentPrice := [("BTCUSDT", 100)],
            buyValue := [], sellValue := [], currQuantity := [],
            pnl_log := [], fills := [], entry_price := some 100,
            call_strike := some "CXX", put_strike := some "PXX",
            in_position := true, pnl := 600 }
          ⟨0, "ETHUSD", 7⟩).in_position = false ∧
      (onMarketData
          { symbols := ["BTCUSDT"], currentPrice := [("BTCUSDT", 100)],
            buyValue := [], sellValue := [], currQuantity := [],
            pnl_log := [], fills := [], entry_price := some 100,
            call_strike := some "CXX", put_strike := some "PXX",
            in_position := true, pnl := 600 }
          ⟨0, "ETHUSD", 7⟩).fills = [] ++
        [⟨"CXX", Side.buy, 1 / 10,
            tradePrice Side.buy (getD [("BTCUSDT", 100)] "CXX" 7)⟩,
          ⟨"PXX", Side.buy, 1 / 10,
            tradePrice Side.buy (getD [("BTCUSDT", 100)] "PXX" 7)⟩]) ↔
      (1 / 100 < |getD [("BTCUSDT", 100)] "BTCUSDT" 0 - 100| / 100 ∨
        (500 : ℚ) ≤ 600 ∨ (600 : ℚ) ≤ -500) :=
  claim2_exit_iff
    { symbols := ["BTCUSDT"], currentPrice := [("BTCUSDT", 100)],
      buyValue := [], sellValue := [], currQuantity := [], pnl_log := [],
      fills := [], entry_price := some 100, call_strike := some "CXX",
      put_strike := some "PXX", in_position := true, pnl := 600 }
    ⟨0, "ETHUSD", 7⟩ 100 "CXX" "PXX" rfl rfl rfl rfl

/-- C10: the exit transition does not reset the strategy-local realized
PnL; it only clears `in_position` and issues the two closing buys, whose
trade confirmations are the sole modification of `pnl` (so `pnl`
accumulates across successive positions). -/
theorem claim10_exit_preserves_pnl (st : State) (row : Tick)
    (cs ps : String) (hin : st.in_position = true)
    (hcs : st.call_strike = some cs) (hps : st.put_strike = some ps)
    (hc : exitCond st) :
    (onMarketData st row).pnl =
      st.pnl - 1 / 10 * tradePrice Side.buy (getD st.currentPrice cs row.close)
        - 1 / 10 * tradePrice Side.buy (getD st.currentPrice ps row.close) ∧
    (onMarketData st row).entry_price = st.entry_price ∧
    (onMarketData st row).call_strike = st.call_strike ∧
    (onMarketData st row).put_strike = st.put_strike ∧
    (onMarketData st row).in_position = false := by
  rw [onMarketData_inPos st row hin]
  unfold exitCheck
  rw [if_pos hin, if_pos hc]
  refine ⟨?_, ?_, ?_, ?_, ?_⟩
  · simp [hcs, hps, onOrder_pnl_buy]
  · simp [hcs, hps]
  · simp [hcs, hps]
  · simp [hcs, hps]
  · simp

/-- Witness for C10 on the same concrete in-position state. -/
theorem claim10_exit_preserves_pnl_witness :
    (onMarketData
        { symbols := ["BTCUSDT"], currentPrice := [("BTCUSDT", 100)],
          buyValue := [], sellValue := [], currQuantity := [],
          pnl_log := [], fills := [], entry_price := some 100,
          call_strike := some "CXX", put_strike := some "PXX",
          in_position := true, pnl := 600 }
        ⟨0, "ETHUSD", 7⟩).pnl =
      600 - 1 / 10 * tradePrice Side.buy (getD [("BTCUSDT", 100)] "CXX" 7)
        - 1 / 10 * tradePrice Side.buy (getD [("BTCUSDT", 100)] "PXX" 7) ∧
    (onMarketData
        { symbols := ["BTCUSDT"], currentPrice := [("BTCUSDT", 100)],
          buyValue := [], sellValue := [], currQuantity := [],
          pnl_log := [], fills := [], entry_price := some 100,
          call_strike := some "CXX", put_strike := some "PXX",
          in_position := true, pnl := 600 }
        ⟨0, "ETHUSD", 7⟩).entry_price = some 100 ∧
    (onMarketData
        { symbols := ["BTCUSDT"], currentPrice := [("BTCUSDT", 100)],
          buyValue := [], sellValue := [], currQuantity := [],
          pnl_log := [], fills := [], entry_price := some 100,
          call_strike := some "CXX", put_strike := some "PXX",
          in_position := true, pnl := 600 }
        ⟨0, "ETHUSD", 7⟩).call_strike = some "CXX" ∧
    (onMarketData
        { symbols := ["BTCUSDT"], currentPrice := [("BTCUSDT", 100)],
          buyValue := [], sellValue := [], currQuantity := [],
          pnl_log := [], fills := [], entry_price := some 100,
          call_strike := some "CXX", put_strike := some "PXX",
          in_position := true, pnl := 600 }
        ⟨0, "ETHUSD", 7⟩).put_strike = some "PXX" ∧
    (onMarketData
        { symbols := ["BTCUSDT"], currentPrice := [("BTCUSDT", 100)],
          buyValue := [], sellValue := [], currQuantity := [],
          pnl_log := [], fills := [], entry_price := some 100,
          call_strike := some "CXX", put_strike := some "PXX",
          in_position := true, pnl := 600 }
        ⟨0, "ETHUSD", 7⟩).in_position = false :=
  claim10_exit_preserves_pnl
    { symbols := ["BTCUSDT"], currentPrice := [("BTCUSDT", 100)],
      buyValue := [], sellValue := [], currQuantity := [], pnl_log := [],
      fills := [], entry_price := some 100, call_strike := some "CXX",
      put_strike := some "PXX", in_position := true, pnl := 600 }
    ⟨0, "ETHUSD", 7⟩ "CXX" "PXX" rfl rfl rfl
    (by right; left; norm_num)

/-- C3: from a trigger tick at the entry time with price 50050 the
derived at-the-money strike is `round(50050/1000)*1000 = 50000`; and
whenever either derived leg identifier is missing from the configured
universe, a flat strategy submits no order at all on the event and stays
`Flat`. -/
theorem claim3_entry_gating :
    pyRound ((50050 : ℚ) / 1000) * 1000 = 50000 ∧
    ∀ (st : State) (row : Tick) (cs ps : String),
      st.in_position = false →
      derivedStrikes st.symbols row.close = some (cs, ps) →
      (cs ∉ st.symbols ∨ ps ∉ st.symbols) →
      (onMarketData st row).fills = st.fills ∧
      (onMarketData st row).in_position = false := by
  constructor
  · unfold pyRound; norm_num
  · intro st row cs ps hflat hD habs
    unfold onMarketData
    dsimp only
    by_cases h1 : st.in_position = false ∧ containsBTCUSDT row.symbol = true
    · rw [if_pos h1]
      by_cases h2 : row.timestamp / 3600 % 24 = 13 ∧
          row.timestamp / 60 % 60 = 0
      · rw [if_pos h2]
        simp only [hD]
        have hmem : ¬ (cs ∈ st.symbols ∧ ps ∈ st.symbols) := by
          rcases habs with h | h
          · exact fun hb => h hb.1
          · exact fun hb => h hb.2
        rw [if_neg hmem]
        rw [exitCheck_flat _ _ (by simpa using hflat)]
        exact ⟨rfl, by simpa using hflat⟩
      · rw [if_neg h2, exitCheck_flat st _ hflat]
        exact ⟨rfl, hflat⟩
    · rw [if_neg h1, exitCheck_flat st _ hflat]
      exact ⟨rfl, hflat⟩

/-- Witness for C3: universe listing only the call leg, trigger tick at
13:00 with price 50050; no order is placed and the state stays flat. -/
theorem claim3_entry_gating_witness :
    (pyRound ((50050 : ℚ) / 1000) * 1000 = 50000) ∧
    (onMarketData (initState ["C-BTC-50000-240101"])
        ⟨46800, "BTCUSDT", 50050⟩).fills = [] ∧
    (onMarketData (initState ["C-BTC-50000-240101"])
        ⟨46800, "BTCUSDT", 50050⟩).in_position = false := by
  have hD : derivedStrikes (initState ["C-BTC-50000-240101"]).symbols
      ((50050 : ℚ)) =
      some ("C-BTC-50000-240101", "P-BTC-50000-240101") := by
    unfold derivedStrikes
    have h : pyRound ((50050 : ℚ) / 1000) = 50 := by unfold pyRound; norm_num
    simp [h, initState]
    decide
  have habs : "C-BTC-50000-240101" ∉ (initState ["C-BTC-50000-240101"]).symbols ∨
      "P-BTC-50000-240101" ∉ (initState ["C-BTC-50000-240101"]).symbols := by
    right
    decide
  have hmain := claim3_entry_gating.2 (initState ["C-BTC-50000-240101"])
    ⟨46800, "BTCUSDT", 50050⟩ "C-BTC-50000-240101" "P-BTC-50000-240101"
    rfl hD habs
  exact ⟨claim3_entry_gating.1, hmain.1, hmain.2⟩

/-- C5: for any feed the code manages to load, the emitted PnL series
has exactly one entry per tick (its length is the input row count) and
its timestamp column is non-decreasing. -/
theorem claim5_series_alignment (frames : List (List Tick))
    (ticks : List Tick) (syms : List String)
    (h : readData frames = Except.ok ticks) :
    ((startSimulation (initState syms) ticks).pnl_log).length =
      ticks.length ∧
    ticks.length = frames.flatten.length ∧
    List.Pairwise (fun a b => a ≤ b)
      (((startSimulation (initState syms) ticks).pnl_log).map Prod.fst) := by
  have hlog := startSimulation_log_fst ticks (initState syms)
  cases frames with
  | nil => simp [readData] at h
  | cons f fs =>
      have hticks : sortTicks ((f :: fs).flatten) = ticks := by
        simpa [readData] using h
      refine ⟨?_, ?_, ?_⟩
      · have : ((startSimulation (initState syms) ticks).pnl_log).length =
            (((startSimulation (initState syms) ticks).pnl_log).map
              Prod.fst).length := (List.length_map _ _).symm
        rw [this, hlog]
        simp [initState]
      · rw [← hticks]
        exact List.length_insertionSort tickLE _
      · rw [hlog]
        have hsorted : List.Sorted tickLE ticks := by
          rw [← hticks]
          exact List.sorted_insertionSort tickLE _
        simp only [initState, List.map_nil, List.nil_append]
        exact List.pairwise_map.mpr hsorted

/-- Witness for C5 on a two-row single-file feed given out of order. -/
theorem claim5_series_alignment_witness :
    ((startSimulation (initState ["A"])
        [⟨3, "A", 2⟩, ⟨5, "A", 1⟩]).pnl_log).length =
      ([⟨3, "A", 2⟩, ⟨5, "A", 1⟩] : List Tick).length ∧
    ([⟨3, "A", 2⟩, ⟨5, "A", 1⟩] : List Tick).length =
      ([[⟨5, "A", 1⟩, ⟨3, "A", 2⟩]] : List (List Tick)).flatten.length ∧
    List.Pairwise (fun a b => a ≤ b)
      (((startSimulation (initState ["A"])
          [⟨3, "A", 2⟩, ⟨5, "A", 1⟩]).pnl_log).map Prod.fst) :=
  claim5_series_alignment [[⟨5, "A", 1⟩, ⟨3, "A", 2⟩]]
    [⟨3, "A", 2⟩, ⟨5, "A", 1⟩] ["A"] rfl

/-- Configured universe for the same-tick entry/exit scenario. -/
def symsC9 : List String :=
  ["BTCUSDT", "C-BTC-50000-240101", "P-BTC-50000-240101"]

/-- Feed for the same-tick entry/exit scenario: two option ticks pricing
the legs at 3000, then the 13:00 trigger tick. -/
def ticksC9 : List Tick :=
  [⟨46700, "C-BTC-50000-240101", 3000⟩,
   ⟨46710, "P-BTC-50000-240101", 3000⟩,
   ⟨46800, "BTCUSDT", 50050⟩]

set_option maxHeartbeats 1000000 in
/-- C9: a tick whose entry sell fills alone push the strategy-local
realized PnL to at least 500 makes the strategy enter and exit within
that single `onMarketData` call: the first two ticks place no order, the
third produces the two entry sells (0.1 at 2999.7 each, realized PnL
599.94) immediately followed by the two closing buys, ending `Flat`. -/
theorem claim9_same_tick_entry_exit :
    (startSimulation (initState symsC9) (ticksC9.take 2)).fills = [] ∧
    (startSimulation (initState symsC9) ticksC9).fills =
      [⟨"C-BTC-50000-240101", Side.sell, 1 / 10, 29997 / 10⟩,
       ⟨"P-BTC-50000-240101", Side.sell, 1 / 10, 29997 / 10⟩,
       ⟨"C-BTC-50000-240101", Side.buy, 1 / 10, 30003 / 10⟩,
       ⟨"P-BTC-50000-240101", Side.buy, 1 / 10, 30003 / 10⟩] ∧
    (startSimulation (initState symsC9) ticksC9).in_position = false ∧
    (startSimulation (initState symsC9) ticksC9).pnl = -3 / 25 := by
  have hD : derivedStrikes
      ["BTCUSDT", "C-BTC-50000-240101", "P-BTC-50000-240101"]
      ((50050 : ℚ)) =
      some ("C-BTC-50000-240101", "P-BTC-50000-240101") := by
    unfold derivedStrikes
    have h : pyRound ((50050 : ℚ) / 1000) = 50 := by unfold pyRound; norm_num
    simp [h]
    decide
  have hc1 : containsBTCUSDT "C-BTC-50000-240101" = false := by decide
  have hc2 : containsBTCUSDT "P-BTC-50000-240101" = false := by decide
  have hc3 : containsBTCUSDT "BTCUSDT" = true := by decide
  norm_num [startSimulation, simStep, onMarketData, exitCheck, exitCond,
    onOrder, onTradeConfirmation, tradePrice, getD, setD, totalPnl,
    initState, symsC9, ticksC9, hD, hc1, hc2, hc3]

end CryptoSim
